import Mathlib

/-!
Verification of the browser scripts in src/script.js.

The file gives a shallow embedding of the data and control flow of the
script: pure computations become Lean functions, the browser environment
(DOM presence, the fetch transport, Math.random, timers) is passed in as
explicit parameters, and the observable effects of each handler (style
writes, listener registrations, toasts, scroll requests) are recorded in
small effect records.  JavaScript numbers are modelled as exact rationals.
-/

namespace Script

/-! ### Email validation

`isValidEmail` (src/script.js:452-455) tests the whole input against the
regular expression `/^[^\s@]+@[^\s@]+\.[^\s@]+$/`.  The embedding keeps
the structure of the pattern: `matchSeg k` is the matcher for the
one-or-more character class `[^\s@]+` followed by a continuation `k`,
and the continuations spell out the literal `@`, the second class, the
literal `.`, the final class and the end anchor.  `regex.test` asks for
the existence of a decomposition, which is exactly what the backtracking
alternative `k rest || matchSeg k rest` computes. -/

/-- The character class `\s` of JavaScript regular expressions: ASCII
whitespace, no-break space, BOM, and the Unicode space separators. -/
def isJsSpace (c : Char) : Bool :=
  c == ' ' || c == '\t' || c == '\n' || c == '\r' || c == '\x0b' || c == '\x0c' ||
  c == '\u00A0' || c == '\uFEFF' || c == '\u1680' ||
  (decide (0x2000 ≤ c.toNat) && decide (c.toNat ≤ 0x200A)) ||
  c == '\u2028' || c == '\u2029' || c == '\u202F' || c == '\u205F' || c == '\u3000'

/-- The character class `[^\s@]`: neither whitespace nor `@`. -/
def classOk (c : Char) : Bool :=
  !(isJsSpace c) && !(c == '@')

/-- Matcher for `[^\s@]+` followed by the continuation `k`. -/
def matchSeg (k : List Char → Bool) : List Char → Bool
  | [] => false
  | c :: rest => classOk c && (k rest || matchSeg k rest)

/-- Matcher for the trailing `[^\s@]+$` of the pattern. -/
def tailMatch (s : List Char) : Bool :=
  matchSeg List.isEmpty s

/-- Matcher for the literal `.` followed by `[^\s@]+$`. -/
def domainDot : List Char → Bool
  | [] => false
  | c :: s4 => c == '.' && tailMatch s4

/-- Matcher for the literal `@` followed by `[^\s@]+\.[^\s@]+$`. -/
def afterAt : List Char → Bool
  | [] => false
  | c :: s2 => c == '@' && matchSeg domainDot s2

/-- isValidEmail from src/script.js:452-455: full-string test of the
regular expression `/^[^\s@]+@[^\s@]+\.[^\s@]+$/`. -/
def isValidEmail (email : String) : Bool :=
  matchSeg afterAt email.data

/-- Restatement of the claimed behaviour of `isValidEmail` in the words
of the specification: no whitespace anywhere, exactly one `@` which is
not the first character, and after the `@` at least one `.` that is
neither immediately after the `@` nor the last character. -/
def emailSpec (email : String) : Bool :=
  (email.data.all fun c => !(isJsSpace c)) &&
  ((email.data.count '@' == 1) &&
  ((!((email.data.takeWhile fun c => !(c == '@')).isEmpty)) &&
  ((List.range ((email.data.dropWhile fun c => !(c == '@')).drop 1).length).any fun j =>
    ((email.data.dropWhile fun c => !(c == '@')).drop 1).getD j ' ' == '.' &&
    (decide (0 < j) &&
    decide (j + 1 < ((email.data.dropWhile fun c => !(c == '@')).drop 1).length)))))

/-! ### Sensor readings and the dashboard rolling history

`DataDashboard` (src/script.js:101-300) keeps four parallel arrays in
`this.data` and appends to them in `updateDashboard`.  The numeric
columns hold `parseFloat` results; `parseFloat` is a JavaScript
built-in working on IEEE doubles, so the embedding is parameterised by
an arbitrary parse function `pf` into an arbitrary value type.  The DOM
readout writes and the chart redraw read `this.data` but never change
it, so they do not appear in the state model. -/

/-- A sensor reading as consumed by `updateDashboard`: three numeric
strings and a display timestamp, the shape produced by
`generateMockData` (src/script.js:157-165) and expected from the
endpoint JSON. -/
structure Reading where
  temperature : String
  humidity : String
  pressure : String
  timestamp : String

/-- The four parallel rolling histories of `this.data`
(src/script.js:103-108). -/
structure DashData (α : Type) where
  temperature : List α
  humidity : List α
  pressure : List α
  timestamps : List String

/-- The constructor state: four empty histories. -/
def emptyDash (α : Type) : DashData α := ⟨[], [], [], []⟩

/-- `DataDashboard.updateDashboard` (src/script.js:170-198) restricted
to its change of `this.data`: push the parsed fields onto the four
arrays, then, if the temperature history now has more than 20 entries,
shift (drop the first entry of) all four arrays. -/
def updateDashboard {α : Type} (pf : String → α) (st : DashData α) (d : Reading) : DashData α :=
  if 20 < (st.temperature ++ [pf d.temperature]).length then
    { temperature := (st.temperature ++ [pf d.temperature]).tail
      humidity := (st.humidity ++ [pf d.humidity]).tail
      pressure := (st.pressure ++ [pf d.pressure]).tail
      timestamps := (st.timestamps ++ [d.timestamp]).tail }
  else
    { temperature := st.temperature ++ [pf d.temperature]
      humidity := st.humidity ++ [pf d.humidity]
      pressure := st.pressure ++ [pf d.pressure]
      timestamps := st.timestamps ++ [d.timestamp] }

/-- The dashboard state after a sequence of `updateDashboard` calls
starting from the empty histories. -/
def runDashboard {α : Type} (pf : String → α) (rs : List Reading) : DashData α :=
  rs.foldl (updateDashboard pf) (emptyDash α)

/-- The last 20 entries of a list. -/
def last20 {α : Type} (l : List α) : List α := l.drop (l.length - 20)

/-! ### Custom cursor

`CustomCursor` (src/script.js:5-90).  Coordinates are JavaScript
numbers; the embedding uses exact rationals.  The Euclidean distance of
the follower to the pointer is expressed in the theorems through
`Real.sqrt` applied to the rational squared distance, keeping every
definition executable. -/

/-- The environment consulted by `CustomCursor.isTouchDevice`
(src/script.js:33-39): the two navigator touch-point counters and the
result of the `(hover: none)` media query. -/
structure CursorEnv where
  maxTouchPoints : Nat
  msMaxTouchPoints : Nat
  hoverNoneMatches : Bool

/-- `CustomCursor.isTouchDevice` (src/script.js:33-39). -/
def isTouchDevice (e : CursorEnv) : Bool :=
  decide (0 < e.maxTouchPoints) || decide (0 < e.msMaxTouchPoints) || e.hoverNoneMatches

/-- The externally observable actions of `CustomCursor.init`
(src/script.js:21-31): document-level listeners attached, per-element
hover listeners attached, whether the animation loop was started, and
the style writes performed by the first `animate` call. -/
structure CursorInitEffect where
  docListeners : Nat
  hoverListeners : Nat
  animationStarted : Bool
  styleWrites : Nat

/-- `CustomCursor.init` (src/script.js:21-31): on a touch device it
returns immediately; otherwise it attaches `mousemove`, `mouseenter`
and `mouseleave` on the document, two hover listeners on each of the
`k` interactive elements, and starts `animate`, whose first run writes
the two style coordinates of the outer cursor. -/
def cursorInit (e : CursorEnv) (k : Nat) : CursorInitEffect :=
  if isTouchDevice e then ⟨0, 0, false, 0⟩
  else ⟨3, 2 * k, true, 2⟩

/-- `easeAmount` (src/script.js:16): the per-frame interpolation factor. -/
def easeAmount : ℚ := 0.12

/-- One `animate` frame (src/script.js:80-89): move the outer cursor a
fraction `easeAmount` of the remaining distance toward the inner
cursor, in each coordinate. -/
def animateStep (inner outer : ℚ × ℚ) : ℚ × ℚ :=
  (outer.1 + (inner.1 - outer.1) * easeAmount,
   outer.2 + (inner.2 - outer.2) * easeAmount)

/-- The outer cursor position after `n` animation frames with a
stationary pointer at `inner`. -/
def followerAt (inner outer0 : ℚ × ℚ) : Nat → ℚ × ℚ
  | 0 => outer0
  | n + 1 => animateStep inner (followerAt inner outer0 n)

/-- Squared Euclidean distance from the pointer to a follower position. -/
def distSq (inner p : ℚ × ℚ) : ℚ :=
  (inner.1 - p.1) ^ 2 + (inner.2 - p.2) ^ 2

/-- The per-frame decay ratio `1 - easeAmount`. -/
def decayRatio : ℚ := 1 - easeAmount

/-! ### Mock sensor data

`DataDashboard.generateMockData` (src/script.js:157-165) draws three
values from `Math.random` (uniform in `[0, 1)`) and renders each with
`Number.prototype.toFixed(2)`.  The random draws are parameters of the
embedding; `toFixed(2)` is modelled for the non-negative values
produced here: round to the integer of hundredths nearest to the value
(ties away from zero, which for positive input is `⌊100 x + 1/2⌋`) and
print it with exactly two digits after the decimal point.
`new Date().toLocaleTimeString()` is an external clock and becomes the
`ts` parameter. -/

/-- The scaled integer chosen by `toFixed(2)` for a non-negative value. -/
def toFixed2Int (v : ℚ) : ℤ := ⌊v * 100 + 1 / 2⌋

/-- The decimal digit character for `d < 10`. -/
def digitChar (d : Nat) : Char := Char.ofNat (48 + d)

/-- The numeric value of a decimal digit character. -/
def digitVal (c : Char) : Nat := c.toNat - 48

/-- The base-10 digit characters of a natural number, most significant
first. -/
def natDigits (n : Nat) : List Char :=
  if _h : n < 10 then [digitChar n]
  else natDigits (n / 10) ++ [digitChar (n % 10)]
termination_by n
decreasing_by exact Nat.div_lt_self (by omega) (by omega)

/-- `toFixed(2)` for the non-negative readings of this script: integer
part, a dot, and exactly two fractional digits. -/
def toFixed2 (v : ℚ) : String :=
  String.mk (natDigits ((toFixed2Int v).toNat / 100) ++
    '.' :: [digitChar ((toFixed2Int v).toNat % 100 / 10), digitChar ((toFixed2Int v).toNat % 100 % 10)])

/-- The natural number denoted by a list of digit characters. -/
def natOfDigits (l : List Char) : Nat :=
  l.foldl (fun a c => 10 * a + digitVal c) 0

/-- The rational value denoted by a decimal string `digits.digits`. -/
def parseDecimal (s : String) : ℚ :=
  (natOfDigits (s.data.takeWhile fun c => !(c == '.')) : ℚ) +
    (natOfDigits ((s.data.dropWhile fun c => !(c == '.')).drop 1) : ℚ) /
      10 ^ ((s.data.dropWhile fun c => !(c == '.')).drop 1).length

/-- Checks that a string is a decimal numeral with a non-empty integer
part and exactly two digits after the decimal point. -/
def isTwoDecimalStr (s : String) : Bool :=
  !((s.data.takeWhile fun c => !(c == '.')).isEmpty) &&
  ((s.data.takeWhile fun c => !(c == '.')).all Char.isDigit &&
  (match s.data.dropWhile fun c => !(c == '.') with
   | '.' :: fp => (fp.length == 2) && fp.all Char.isDigit
   | _ => false))

/-- `DataDashboard.generateMockData` (src/script.js:157-165), with the
three `Math.random` draws and the clock reading made explicit. -/
def generateMockData (r1 r2 r3 : ℚ) (ts : String) : Reading :=
  { temperature := toFixed2 (20 + r1 * 10)
    humidity := toFixed2 (40 + r2 * 30)
    pressure := toFixed2 (1013 + r3 * 5)
    timestamp := ts }

/-! ### The fetch cycle

`DataDashboard.fetchESP32Data` (src/script.js:131-152).  The transport
outcome of the `fetch` call is a parameter; the successive
`Math.random`-driven `generateMockData` results are supplied by an
oracle `mock`, where `mock i` is the reading produced by the `(i+1)`-th
call of the cycle.  Because the inner `.catch` handler returns the mock
*reading object* in place of a `Response`, the awaited value is either
a response or a plain object; reading `.ok` on the plain object yields
`undefined`, which is falsy, and calling `.json()` on it would throw. -/

/-- Outcome of `fetch` of the sensor-data endpoint: a synchronous throw, a
rejected promise, or a response with its `ok` flag and the result of
`response.json()` (`none` when parsing the body fails). -/
inductive FetchResult where
  | thrown
  | rejected
  | response (ok : Bool) (body : Option Reading)

/-- The value bound to `response` after
`await fetch(...).catch(() => this.generateMockData())`. -/
inductive AwaitedValue where
  | resp (ok : Bool) (body : Option Reading)
  | mockObj (r : Reading)

/-- Reading `response.ok`: the flag of a real response; `undefined`
(falsy) on the plain mock object. -/
def responseOk : AwaitedValue → Bool
  | AwaitedValue.resp ok _ => ok
  | AwaitedValue.mockObj _ => false

/-- `await response.json()`: the parsed body of a real response; on the
plain mock object `.json` is not a function, so the call throws
(`none`). -/
def jsonBody : AwaitedValue → Option Reading
  | AwaitedValue.resp _ b => b
  | AwaitedValue.mockObj _ => none

/-- The observable outcome of one fetch cycle: the reading passed to
`updateDashboard`, how many times `generateMockData` ran, and whether
any error was shown to the user (the only failure-path output in the
source is a `console.log`, which is not user-facing). -/
structure CycleTrace where
  updateArg : Reading
  mockCount : Nat
  errorShown : Bool
  updateRan : Bool

/-- The part of the cycle after the awaited value is known:
`if (response.ok) { updateDashboard(await response.json()) } else
{ updateDashboard(this.generateMockData()) }`, with a `json()` failure
landing in the surrounding `try/catch`, which also falls back to
`updateDashboard(this.generateMockData())`. `c1` counts the mock
readings generated so far in this cycle. -/
def afterAwait (response : AwaitedValue) (c1 : Nat) (mock : Nat → Reading) : CycleTrace :=
  if responseOk response then
    match jsonBody response with
    | some d => ⟨d, c1, false, true⟩
    | none => ⟨mock c1, c1 + 1, false, true⟩
  else ⟨mock c1, c1 + 1, false, true⟩

/-- One cycle of `DataDashboard.fetchESP32Data` (src/script.js:131-152). -/
def fetchESP32Data (fr : FetchResult) (mock : Nat → Reading) : CycleTrace :=
  match fr with
  | FetchResult.thrown => ⟨mock 0, 1, false, true⟩
  | FetchResult.rejected => afterAwait (AwaitedValue.mockObj (mock 0)) 1 mock
  | FetchResult.response ok body => afterAwait (AwaitedValue.resp ok body) 0 mock

/-- A fetch outcome is a failure unless it is an `ok` response with a
parseable body. -/
def isFailure : FetchResult → Bool
  | FetchResult.response true (some _) => false
  | _ => true

/-! ### Smooth scroll handlers

Two independent pieces of the source attach click handlers to every
`a[href^="#"]` anchor: the first bundle at src/script.js:313-324 and
`initSmoothScroll` at src/script.js:389-403.  Each handler receives the
anchor `href` and consults `document.querySelector`, modelled by the
predicate `te` (whether a matching element exists). -/

/-- What a click handler did: whether it called `preventDefault`, and
the selector it requested a smooth scroll to, if any. -/
structure ClickEffect where
  defaultPrevented : Bool
  scrolledTo : Option String

/-- The first-bundle handler (src/script.js:313-324): prevent the
default jump and scroll only when the href is not a bare `#` and a
matching element exists. -/
def smoothScrollHandler1 (href : String) (te : String → Bool) : ClickEffect :=
  if href != "#" && te href then ⟨true, some href⟩
  else ⟨false, none⟩

/-- The `initSmoothScroll` handler (src/script.js:389-403): prevent the
default jump whenever the href is not a bare `#`, then scroll only if a
matching element exists. -/
def initSmoothScrollHandler (href : String) (te : String → Bool) : ClickEffect :=
  if href != "#" then ⟨true, if te href then some href else none⟩
  else ⟨false, none⟩

/-! ### Contact form

`initContactForm` (src/script.js:413-447).  `Object.fromEntries` turns
the form controls into strings, and `!data.name` is true exactly when
the string is empty. -/

/-- The three required fields of the contact form. -/
structure ContactForm where
  name : String
  email : String
  message : String

/-- A toast shown by `showNotification` (src/script.js:466-496). -/
inductive Toast where
  | success (msg : String)
  | error (msg : String)

/-- The observable outcome of one submit: which toast is shown and
whether `this.reset()` ran.  (`e.preventDefault()` always runs first
and no network request is ever made.) -/
structure SubmitEffect where
  toast : Toast
  didReset : Bool

/-- The submit handler of `initContactForm` (src/script.js:418-446). -/
def contactSubmit (d : ContactForm) : SubmitEffect :=
  if d.name == "" || d.email == "" || d.message == "" then
    ⟨Toast.error "Bitte fülle alle Felder aus!", false⟩
  else if !(isValidEmail d.email) then
    ⟨Toast.error "Bitte gib eine gültige E-Mail ein!", false⟩
  else
    ⟨Toast.success "Danke für deine Nachricht! Wir kontaktieren dich bald.", true⟩

/-- Concrete input sequence for the dashboard history theorem: 21
readings with distinguishable fields. -/
def c2Readings : List Reading :=
  (List.range 21).map fun i =>
    ⟨String.mk (List.replicate i 'a'), String.mk (List.replicate (i + 1) 'b'),
     String.mk (List.replicate (i + 2) 'c'), String.mk (List.replicate (i + 3) 'd')⟩

/-- A concrete mock-reading oracle. -/
def mockSeq (i : Nat) : Reading :=
  ⟨String.mk (List.replicate i 'm'), String.mk (List.replicate i 'h'),
   String.mk (List.replicate i 'p'), String.mk (List.replicate i 't')⟩

theorem matchSeg_iff (k : List Char → Bool) (l : List Char) :
    matchSeg k l = true ↔
      ∃ a b, l = a ++ b ∧ a ≠ [] ∧ (∀ c ∈ a, classOk c = true) ∧ k b = true := by
  induction l with
  | nil =>
    simp only [matchSeg]
    constructor
    · intro h; exact Bool.noConfusion h
    · rintro ⟨a, b, hab, ha, -, -⟩
      cases a with
      | nil => exact absurd rfl ha
      | cons x xs => simp at hab
  | cons c rest ih =>
    simp only [matchSeg, Bool.and_eq_true, Bool.or_eq_true, ih]
    constructor
    · rintro ⟨hc, hk | ⟨a, b, hab, ha, hall, hkb⟩⟩
      · exact ⟨[c], rest, rfl, by simp, by simpa using hc, hk⟩
      · refine ⟨c :: a, b, by rw [hab, List.cons_append], by simp, ?_, hkb⟩
        intro x hx
        rcases List.mem_cons.mp hx with rfl | hx
        · exact hc
        · exact hall x hx
    · rintro ⟨a, b, hab, ha, hall, hkb⟩
      cases a with
      | nil => exact absurd rfl ha
      | cons a0 a1 =>
        rw [List.cons_append] at hab
        injection hab with h1 h2
        subst h1
        refine ⟨hall c (List.mem_cons_self c a1), ?_⟩
        cases a1 with
        | nil =>
          left
          rw [List.nil_append] at h2
          rw [h2]
          exact hkb
        | cons y ys =>
          right
          exact ⟨y :: ys, b, h2, by simp, fun x hx => hall x (List.mem_cons_of_mem _ hx), hkb⟩

theorem tailMatch_iff (s : List Char) :
    tailMatch s = true ↔ s ≠ [] ∧ ∀ c ∈ s, classOk c = true := by
  rw [tailMatch, matchSeg_iff]
  constructor
  · rintro ⟨a, b, rfl, ha, hall, hb⟩
    have hb' : b = [] := by
      cases b with
      | nil => rfl
      | cons x xs => exact Bool.noConfusion hb
    subst hb'
    exact ⟨by simpa using ha, by simpa using hall⟩
  · rintro ⟨hs, hall⟩
    exact ⟨s, [], by simp, hs, hall, rfl⟩

theorem domainDot_iff (b : List Char) :
    domainDot b = true ↔ ∃ s4, b = '.' :: s4 ∧ tailMatch s4 = true := by
  cases b with
  | nil => simp [domainDot]
  | cons c s4 =>
    simp only [domainDot, Bool.and_eq_true, beq_iff_eq]
    constructor
    · rintro ⟨rfl, h⟩; exact ⟨s4, rfl, h⟩
    · rintro ⟨s4', heq, h⟩
      injection heq with h1 h2
      subst h1; subst h2
      exact ⟨rfl, h⟩

theorem afterAt_iff (b : List Char) :
    afterAt b = true ↔ ∃ s2, b = '@' :: s2 ∧ matchSeg domainDot s2 = true := by
  cases b with
  | nil => simp [afterAt]
  | cons c s2 =>
    simp only [afterAt, Bool.and_eq_true, beq_iff_eq]
    constructor
    · rintro ⟨rfl, h⟩; exact ⟨s2, rfl, h⟩
    · rintro ⟨s2', heq, h⟩
      injection heq with h1 h2
      subst h1; subst h2
      exact ⟨rfl, h⟩

/-- The regular expression accepts exactly the strings of the shape
`local ++ "@" ++ seg ++ "." ++ tail` with all three pieces non-empty and
free of whitespace and `@`. -/
theorem isValidEmail_iff (s : String) :
    isValidEmail s = true ↔
      ∃ l m r : List Char,
        s.data = l ++ '@' :: (m ++ '.' :: r) ∧
        l ≠ [] ∧ m ≠ [] ∧ r ≠ [] ∧
        (∀ c ∈ l, classOk c = true) ∧ (∀ c ∈ m, classOk c = true) ∧
        (∀ c ∈ r, classOk c = true) := by
  rw [isValidEmail, matchSeg_iff]
  constructor
  · rintro ⟨l, b, hdata, hl, hlok, hb⟩
    rcases (afterAt_iff b).mp hb with ⟨s2, rfl, hs2⟩
    rcases (matchSeg_iff _ _).mp hs2 with ⟨m, b2, rfl, hm, hmok, hb2⟩
    rcases (domainDot_iff b2).mp hb2 with ⟨s4, rfl, hs4⟩
    rcases (tailMatch_iff s4).mp hs4 with ⟨hr, hrok⟩
    exact ⟨l, m, s4, hdata, hl, hm, hr, hlok, hmok, hrok⟩
  · rintro ⟨l, m, r, hdata, hl, hm, hr, hlok, hmok, hrok⟩
    refine ⟨l, '@' :: (m ++ '.' :: r), hdata, hl, hlok, ?_⟩
    apply (afterAt_iff _).mpr
    refine ⟨m ++ '.' :: r, rfl, ?_⟩
    apply (matchSeg_iff _ _).mpr
    refine ⟨m, '.' :: r, rfl, hm, hmok, ?_⟩
    apply (domainDot_iff _).mpr
    exact ⟨r, rfl, (tailMatch_iff r).mpr ⟨hr, hrok⟩⟩

theorem classOk_split (c : Char) (h : classOk c = true) :
    isJsSpace c = false ∧ (c == '@') = false := by
  rw [classOk, Bool.and_eq_true] at h
  exact ⟨by simpa using h.1, by simpa using h.2⟩

theorem classOk_of_parts (c : Char) (h1 : isJsSpace c = false) (h2 : (c == '@') = false) :
    classOk c = true := by
  rw [classOk, Bool.and_eq_true, h1, h2]
  exact ⟨rfl, rfl⟩

theorem takeWhile_middle (p : Char → Bool) (l : List Char) (a : Char) (t : List Char)
    (hl : ∀ c ∈ l, p c = true) (ha : p a = false) :
    (l ++ a :: t).takeWhile p = l := by
  induction l with
  | nil => simp [List.takeWhile_cons, ha]
  | cons x xs ih =>
    have hx : p x = true := hl x (List.mem_cons_self x xs)
    rw [List.cons_append, List.takeWhile_cons, hx]
    simp only [if_true]
    rw [ih fun c hc => hl c (List.mem_cons_of_mem _ hc)]

theorem dropWhile_middle (p : Char → Bool) (l : List Char) (a : Char) (t : List Char)
    (hl : ∀ c ∈ l, p c = true) (ha : p a = false) :
    (l ++ a :: t).dropWhile p = a :: t := by
  induction l with
  | nil => simp [List.dropWhile_cons, ha]
  | cons x xs ih =>
    have hx : p x = true := hl x (List.mem_cons_self x xs)
    rw [List.cons_append, List.dropWhile_cons, hx]
    simp only [if_true]
    exact ih fun c hc => hl c (List.mem_cons_of_mem _ hc)

theorem dropWhile_cons_head (p : Char → Bool) (l : List Char) (c0 : Char) (t : List Char)
    (h : l.dropWhile p = c0 :: t) : p c0 = false := by
  induction l with
  | nil => exact absurd h (by simp [List.dropWhile])
  | cons x xs ih =>
    rw [List.dropWhile_cons] at h
    by_cases hx : p x = true
    · rw [if_pos hx] at h
      exact ih h
    · rw [if_neg hx] at h
      injection h with h1 _
      subst h1
      exact Bool.eq_false_iff.mpr hx

theorem getD_append_length (m : List Char) (x : Char) (r : List Char) (d : Char) :
    (m ++ x :: r).getD m.length d = x := by
  induction m with
  | nil => rfl
  | cons y ys ih => simpa [List.getD] using ih

/-- Characters of the local part, the domain and the tail of a valid
email are not whitespace, and `@` and `.` are not whitespace either, so
a matching string contains no whitespace at all. -/
theorem email_forward (s : String) (h : isValidEmail s = true) : emailSpec s = true := by
  rcases (isValidEmail_iff s).mp h with ⟨l, m, r, hdata, hl, hm, hr, hlok, hmok, hrok⟩
  have hchar : ∀ c ∈ l ++ '@' :: (m ++ '.' :: r), isJsSpace c = false := by
    intro c hc
    rcases List.mem_append.mp hc with h1 | h2
    · exact (classOk_split c (hlok c h1)).1
    · rcases List.mem_cons.mp h2 with rfl | h3
      · decide
      · rcases List.mem_append.mp h3 with h4 | h5
        · exact (classOk_split c (hmok c h4)).1
        · rcases List.mem_cons.mp h5 with rfl | h6
          · decide
          · exact (classOk_split c (hrok c h6)).1
  have hnl : '@' ∉ l := by
    intro hmem
    have := (classOk_split _ (hlok '@' hmem)).2
    simp at this
  have hnm : '@' ∉ m := by
    intro hmem
    have := (classOk_split _ (hmok '@' hmem)).2
    simp at this
  have hnr : '@' ∉ r := by
    intro hmem
    have := (classOk_split _ (hrok '@' hmem)).2
    simp at this
  have hcnt : (l ++ '@' :: (m ++ '.' :: r)).count '@' = 1 := by
    rw [List.count_append, List.count_cons_self, List.count_append,
      List.count_cons_of_ne (by decide), List.count_eq_zero.mpr hnl,
      List.count_eq_zero.mpr hnm, List.count_eq_zero.mpr hnr]
  have hptw : ∀ c ∈ l, (fun c => !(c == '@')) c = true := by
    intro c hc
    simpa using (classOk_split c (hlok c hc)).2
  have hpa : (fun c => !(c == '@')) '@' = false := by decide
  have htw : ((l ++ '@' :: (m ++ '.' :: r)).takeWhile fun c => !(c == '@')) = l :=
    takeWhile_middle _ l '@' (m ++ '.' :: r) hptw hpa
  have hdw : ((l ++ '@' :: (m ++ '.' :: r)).dropWhile fun c => !(c == '@')) =
      '@' :: (m ++ '.' :: r) :=
    dropWhile_middle _ l '@' (m ++ '.' :: r) hptw hpa
  rw [emailSpec, hdata, htw, hdw]
  have hdrop : ('@' :: (m ++ '.' :: r)).drop 1 = m ++ '.' :: r := rfl
  rw [hdrop]
  simp only [Bool.and_eq_true]
  refine ⟨?_, ?_, ?_, ?_⟩
  · exact List.all_eq_true.mpr fun c hc => by simpa using hchar c hc
  · rw [hcnt]
    rfl
  · simpa using hl
  · refine List.any_eq_true.mpr ⟨m.length, List.mem_range.mpr ?_, ?_⟩
    · rw [List.length_append, List.length_cons]
      have := List.length_pos.mpr hr
      omega
    · simp only [Bool.and_eq_true]
      refine ⟨?_, ?_, ?_⟩
      · rw [getD_append_length]
        decide
      · simpa using List.length_pos.mpr hm
      · rw [List.length_append, List.length_cons]
        have := List.length_pos.mpr hr
        simpa using by omega

/-- The spec-shaped test implies the regular-expression test. -/
theorem email_backward (s : String) (h : emailSpec s = true) : isValidEmail s = true := by
  rw [emailSpec, Bool.and_eq_true, Bool.and_eq_true, Bool.and_eq_true] at h
  obtain ⟨hall, hcnt, hne, hany⟩ := h
  have hcnt1 : s.data.count '@' = 1 := by simpa using hcnt
  have hmem : '@' ∈ s.data := List.count_pos_iff.mp (by omega)
  have hsplit : s.data =
      (s.data.takeWhile fun c => !(c == '@')) ++ (s.data.dropWhile fun c => !(c == '@')) :=
    (List.takeWhile_append_dropWhile _ s.data).symm
  cases hdw : s.data.dropWhile (fun c => !(c == '@')) with
  | nil =>
    exfalso
    rw [hdw, List.append_nil] at hsplit
    have : '@' ∈ s.data.takeWhile fun c => !(c == '@') := by rw [← hsplit]; exact hmem
    have := List.mem_takeWhile_imp this
    simp at this
  | cons c0 t =>
    have hc0 : c0 = '@' := by
      have := dropWhile_cons_head _ _ _ _ hdw
      simpa using this
    subst hc0
    have hdata : s.data = (s.data.takeWhile fun c => !(c == '@')) ++ '@' :: t := by
      conv_lhs => rw [hsplit, hdw]
    have hlne : (s.data.takeWhile fun c => !(c == '@')) ≠ [] := by
      intro h0
      rw [h0] at hne
      simp at hne
    have hwl : ∀ c ∈ s.data, isJsSpace c = false := by
      intro c hc
      simpa using List.all_eq_true.mp hall c hc
    have hcl : ∀ c ∈ (s.data.takeWhile fun c => !(c == '@')), classOk c = true := by
      intro c hc
      refine classOk_of_parts c (hwl c ?_) ?_
      · rw [hdata]; exact List.mem_append_left _ hc
      · simpa using List.mem_takeWhile_imp hc
    have hcntt : t.count '@' = 0 := by
      rw [hdata, List.count_append, List.count_cons_self] at hcnt1
      omega
    have hnott : '@' ∉ t := List.count_eq_zero.mp hcntt
    have hct : ∀ c ∈ t, classOk c = true := by
      intro c hc
      refine classOk_of_parts c (hwl c ?_) ?_
      · rw [hdata]
        exact List.mem_append_right _ (List.mem_cons_of_mem _ hc)
      · exact beq_eq_false_iff_ne.mpr fun hceq => hnott (hceq ▸ hc)
    rw [hdw] at hany
    have hdrop : ('@' :: t).drop 1 = t := rfl
    rw [hdrop] at hany
    obtain ⟨j, hjmem, hj⟩ := List.any_eq_true.mp hany
    have hjlt : j < t.length := List.mem_range.mp hjmem
    rw [Bool.and_eq_true, Bool.and_eq_true] at hj
    obtain ⟨hjd, hj0, hj1⟩ := hj
    have hj0' : 0 < j := of_decide_eq_true hj0
    have hj1' : j + 1 < t.length := of_decide_eq_true hj1
    have hgd : t.getD j ' ' = t[j] := by
      rw [List.getD_eq_getElem?_getD, List.getElem?_eq_getElem hjlt]
      rfl
    have hdot : t[j] = '.' := by
      rw [← hgd]
      exact (beq_iff_eq ..).mp hjd
    have ht : t = t.take j ++ '.' :: t.drop (j + 1) := by
      conv_lhs => rw [← List.take_append_drop j t]
      rw [List.drop_eq_getElem_cons hjlt, hdot]
    refine (isValidEmail_iff s).mpr
      ⟨s.data.takeWhile fun c => !(c == '@'), t.take j, t.drop (j + 1), ?_, hlne, ?_, ?_, hcl, ?_, ?_⟩
    · rw [← ht]
      exact hdata
    · refine List.length_pos.mp ?_
      rw [List.length_take]
      omega
    · refine List.length_pos.mp ?_
      rw [List.length_drop]
      omega
    · exact fun c hc => hct c (List.take_subset j t hc)
    · exact fun c hc => hct c (List.drop_subset (j + 1) t hc)

/-- The two decision procedures agree on every string. -/
theorem email_equiv (s : String) : isValidEmail s = true ↔ emailSpec s = true :=
  ⟨email_forward s, email_backward s⟩

theorem length_last20 {α : Type} (l : List α) : (last20 l).length = min l.length 20 := by
  rw [last20, List.length_drop]
  omega

theorem last20_of_le {α : Type} (l : List α) (h : l.length ≤ 20) : last20 l = l := by
  rw [last20]
  have h0 : l.length - 20 = 0 := by omega
  rw [h0, List.drop_zero]

theorem drop_append_left {α : Type} (l t : List α) (n : Nat) (h : n ≤ l.length) :
    (l ++ t).drop n = l.drop n ++ t := by
  induction l generalizing n with
  | nil =>
    have h0 : n = 0 := by simpa using h
    rw [h0]
    simp
  | cons x xs ih =>
    cases n with
    | zero => simp
    | succ n =>
      rw [List.cons_append, List.drop_succ_cons, List.drop_succ_cons]
      exact ih n (by simpa using h)

theorem tail_append_singleton {α : Type} (l : List α) (x : α) (h : l ≠ []) :
    (l ++ [x]).tail = l.tail ++ [x] := by
  cases l with
  | nil => exact absurd rfl h
  | cons y ys => rfl

theorem last20_snoc_lt {α : Type} (l : List α) (x : α) (h : l.length < 20) :
    last20 (l ++ [x]) = last20 l ++ [x] := by
  rw [last20_of_le l (by omega), last20_of_le]
  rw [List.length_append]
  simp only [List.length_cons, List.length_nil]
  omega

theorem last20_snoc_ge {α : Type} (l : List α) (x : α) (h : 20 ≤ l.length) :
    last20 (l ++ [x]) = (last20 l ++ [x]).tail := by
  have hne : l.drop (l.length - 20) ≠ [] := by
    refine List.length_pos.mp ?_
    rw [List.length_drop]
    omega
  rw [last20, last20, tail_append_singleton _ x hne, List.tail_drop, List.length_append]
  have h1 : l.length + [x].length - 20 = (l.length - 20) + 1 := by
    simp only [List.length_cons, List.length_nil]
    omega
  rw [h1, drop_append_left l [x] _ (by omega)]

/-- Closed form for the rolling histories: after any sequence of
appends each column is the suffix of the last 20 of the corresponding
mapped input sequence. -/
theorem runDashboard_eq {α : Type} (pf : String → α) (rs : List Reading) :
    runDashboard pf rs =
      { temperature := last20 (rs.map fun d => pf d.temperature)
        humidity := last20 (rs.map fun d => pf d.humidity)
        pressure := last20 (rs.map fun d => pf d.pressure)
        timestamps := last20 (rs.map Reading.timestamp) } := by
  induction rs using List.reverseRecOn with
  | nil => rfl
  | append_singleton rs d ih =>
    have hstep : runDashboard pf (rs ++ [d]) = updateDashboard pf (runDashboard pf rs) d := by
      rw [runDashboard, List.foldl_append, List.foldl_cons, List.foldl_nil]
      rfl
    rw [hstep, ih, updateDashboard]
    simp only [List.map_append, List.map_cons, List.map_nil]
    by_cases hc : 20 ≤ rs.length
    · have hcond : 20 < ((last20 (rs.map fun d => pf d.temperature)) ++ [pf d.temperature]).length := by
        rw [List.length_append, length_last20, List.length_map]
        simp only [List.length_cons, List.length_nil]
        omega
      rw [if_pos hcond]
      have e1 := last20_snoc_ge (rs.map fun d => pf d.temperature) (pf d.temperature)
        (by rw [List.length_map]; omega)
      have e2 := last20_snoc_ge (rs.map fun d => pf d.humidity) (pf d.humidity)
        (by rw [List.length_map]; omega)
      have e3 := last20_snoc_ge (rs.map fun d => pf d.pressure) (pf d.pressure)
        (by rw [List.length_map]; omega)
      have e4 := last20_snoc_ge (rs.map Reading.timestamp) d.timestamp
        (by rw [List.length_map]; omega)
      rw [e1, e2, e3, e4]
    · have hlt : rs.length < 20 := by omega
      have hcond : ¬ 20 < ((last20 (rs.map fun d => pf d.temperature)) ++ [pf d.temperature]).length := by
        rw [List.length_append, length_last20, List.length_map]
        simp only [List.length_cons, List.length_nil]
        omega
      rw [if_neg hcond]
      have e1 := last20_snoc_lt (rs.map fun d => pf d.temperature) (pf d.temperature)
        (by rw [List.length_map]; omega)
      have e2 := last20_snoc_lt (rs.map fun d => pf d.humidity) (pf d.humidity)
        (by rw [List.length_map]; omega)
      have e3 := last20_snoc_lt (rs.map fun d => pf d.pressure) (pf d.pressure)
        (by rw [List.length_map]; omega)
      have e4 := last20_snoc_lt (rs.map Reading.timestamp) d.timestamp
        (by rw [List.length_map]; omega)
      rw [e1, e2, e3, e4]

theorem distSq_step (inner p : ℚ × ℚ) :
    distSq inner (animateStep inner p) = decayRatio ^ 2 * distSq inner p := by
  rw [distSq, distSq, animateStep, decayRatio]
  ring

theorem decayRatio_cast : ((decayRatio : ℚ) : ℝ) = 0.88 := by
  rw [decayRatio, easeAmount]
  norm_num

theorem distSq_cast_nonneg (inner p : ℚ × ℚ) : (0 : ℝ) ≤ ((distSq inner p : ℚ) : ℝ) := by
  have h : (0 : ℚ) ≤ distSq inner p := by
    rw [distSq]
    positivity
  exact_mod_cast h

theorem dist_step (inner p : ℚ × ℚ) :
    Real.sqrt ((distSq inner (animateStep inner p) : ℚ) : ℝ) =
      ((decayRatio : ℚ) : ℝ) * Real.sqrt ((distSq inner p : ℚ) : ℝ) := by
  rw [distSq_step]
  push_cast
  rw [Real.sqrt_mul (sq_nonneg _), Real.sqrt_sq (by rw [decayRatio_cast]; norm_num)]

theorem dist_geom (inner outer0 : ℚ × ℚ) (n : Nat) :
    Real.sqrt ((distSq inner (followerAt inner outer0 n) : ℚ) : ℝ) =
      ((decayRatio : ℚ) : ℝ) ^ n * Real.sqrt ((distSq inner outer0 : ℚ) : ℝ) := by
  induction n with
  | zero => simp [followerAt]
  | succ n ih =>
    have hf : followerAt inner outer0 (n + 1) = animateStep inner (followerAt inner outer0 n) :=
      rfl
    rw [hf, dist_step, ih, pow_succ]
    ring

theorem distSq_pos (inner p : ℚ × ℚ) (h : p ≠ inner) : 0 < distSq inner p := by
  rw [distSq]
  have hor : inner.1 - p.1 ≠ 0 ∨ inner.2 - p.2 ≠ 0 := by
    by_contra hc
    push_neg at hc
    apply h
    have h1 : p.1 = inner.1 := by linarith [hc.1]
    have h2 : p.2 = inner.2 := by linarith [hc.2]
    exact Prod.ext h1 h2
  rcases hor with h1 | h1
  · have := sq_nonneg (inner.2 - p.2)
    have h2 : 0 < (inner.1 - p.1) ^ 2 :=
      (sq_nonneg _).lt_of_ne (Ne.symm (pow_ne_zero 2 h1))
    linarith
  · have := sq_nonneg (inner.1 - p.1)
    have h2 : 0 < (inner.2 - p.2) ^ 2 :=
      (sq_nonneg _).lt_of_ne (Ne.symm (pow_ne_zero 2 h1))
    linarith

theorem digitVal_digitChar : ∀ d, d < 10 → digitVal (digitChar d) = d := by decide

theorem digitChar_isDigit : ∀ d, d < 10 → (digitChar d).isDigit = true := by decide

theorem isDigit_not_dot (c : Char) (h : c.isDigit = true) : (c == '.') = false := by
  cases hb : c == '.' with
  | false => rfl
  | true =>
    have hc : c = '.' := (beq_iff_eq ..).mp hb
    rw [hc] at h
    exact absurd h (by decide)

theorem natDigits_digits (n : Nat) : ∀ c ∈ natDigits n, c.isDigit = true := by
  induction n using Nat.strong_induction_on with
  | _ n ih =>
    rw [natDigits]
    by_cases h : n < 10
    · rw [dif_pos h]
      intro c hc
      rcases List.mem_cons.mp hc with rfl | hc
      · exact digitChar_isDigit n h
      · simp at hc
    · rw [dif_neg h]
      intro c hc
      rcases List.mem_append.mp hc with h1 | h2
      · exact ih (n / 10) (Nat.div_lt_self (by omega) (by omega)) c h1
      · rcases List.mem_cons.mp h2 with rfl | h3
        · exact digitChar_isDigit (n % 10) (Nat.mod_lt n (by omega))
        · simp at h3

theorem natDigits_ne_nil (n : Nat) : natDigits n ≠ [] := by
  rw [natDigits]
  by_cases h : n < 10
  · rw [dif_pos h]
    simp
  · rw [dif_neg h]
    simp

theorem natOfDigits_natDigits (n : Nat) : natOfDigits (natDigits n) = n := by
  induction n using Nat.strong_induction_on with
  | _ n ih =>
    rw [natDigits]
    by_cases h : n < 10
    · rw [dif_pos h]
      have h0 : natOfDigits [digitChar n] = 10 * 0 + digitVal (digitChar n) := rfl
      rw [h0, digitVal_digitChar n h]
      omega
    · rw [dif_neg h]
      rw [natOfDigits, List.foldl_append]
      have hfold : (natDigits (n / 10)).foldl (fun a c => 10 * a + digitVal c) 0 =
          natOfDigits (natDigits (n / 10)) := rfl
      rw [hfold, ih (n / 10) (Nat.div_lt_self (by omega) (by omega))]
      rw [List.foldl_cons, List.foldl_nil, digitVal_digitChar (n % 10) (Nat.mod_lt n (by omega))]
      omega

theorem toFixed2_data (v : ℚ) :
    (toFixed2 v).data = natDigits ((toFixed2Int v).toNat / 100) ++
      '.' :: [digitChar ((toFixed2Int v).toNat % 100 / 10),
              digitChar ((toFixed2Int v).toNat % 100 % 10)] := rfl

theorem toFixed2_take (v : ℚ) :
    ((toFixed2 v).data.takeWhile fun c => !(c == '.')) =
      natDigits ((toFixed2Int v).toNat / 100) := by
  rw [toFixed2_data]
  apply takeWhile_middle
  · intro c hc
    show (!(c == '.')) = true
    rw [isDigit_not_dot c (natDigits_digits _ c hc)]
    rfl
  · decide

theorem toFixed2_dropw (v : ℚ) :
    ((toFixed2 v).data.dropWhile fun c => !(c == '.')) =
      '.' :: [digitChar ((toFixed2Int v).toNat % 100 / 10),
              digitChar ((toFixed2Int v).toNat % 100 % 10)] := by
  rw [toFixed2_data]
  apply dropWhile_middle
  · intro c hc
    show (!(c == '.')) = true
    rw [isDigit_not_dot c (natDigits_digits _ c hc)]
    rfl
  · decide

theorem natOfDigits_pair (a b : Nat) (ha : a < 10) (hb : b < 10) :
    natOfDigits [digitChar a, digitChar b] = 10 * a + b := by
  rw [natOfDigits, List.foldl_cons, List.foldl_cons, List.foldl_nil,
    digitVal_digitChar a ha, digitVal_digitChar b hb]
  omega

theorem parseDecimal_toFixed2 (v : ℚ) :
    parseDecimal (toFixed2 v) = (((toFixed2Int v).toNat : ℕ) : ℚ) / 100 := by
  rw [parseDecimal, toFixed2_take, toFixed2_dropw]
  have hdrop : (('.' :: [digitChar ((toFixed2Int v).toNat % 100 / 10),
      digitChar ((toFixed2Int v).toNat % 100 % 10)]).drop 1) =
      [digitChar ((toFixed2Int v).toNat % 100 / 10),
       digitChar ((toFixed2Int v).toNat % 100 % 10)] := rfl
  rw [hdrop, natOfDigits_natDigits, natOfDigits_pair _ _ (by omega) (by omega)]
  have h2 : 10 * ((toFixed2Int v).toNat % 100 / 10) + (toFixed2Int v).toNat % 100 % 10 =
      (toFixed2Int v).toNat % 100 := Nat.div_add_mod _ 10
  rw [h2]
  have hn : 100 * ((toFixed2Int v).toNat / 100) + (toFixed2Int v).toNat % 100 =
      (toFixed2Int v).toNat := Nat.div_add_mod _ 100
  have hcast : (((toFixed2Int v).toNat : ℕ) : ℚ) =
      100 * ((((toFixed2Int v).toNat / 100 : ℕ)) : ℚ) +
        ((((toFixed2Int v).toNat % 100 : ℕ)) : ℚ) := by
    exact_mod_cast hn.symm
  rw [hcast]
  norm_num
  ring

theorem isTwoDecimalStr_toFixed2 (v : ℚ) : isTwoDecimalStr (toFixed2 v) = true := by
  rw [isTwoDecimalStr, toFixed2_take, toFixed2_dropw]
  simp only [Bool.and_eq_true]
  refine ⟨?_, ?_, ?_⟩
  · simpa using natDigits_ne_nil ((toFixed2Int v).toNat / 100)
  · exact List.all_eq_true.mpr fun c hc => natDigits_digits _ c hc
  · refine ⟨rfl, ?_⟩
    refine List.all_eq_true.mpr fun c hc => ?_
    rcases List.mem_cons.mp hc with rfl | hc2
    · exact digitChar_isDigit _ (by omega)
    · rcases List.mem_cons.mp hc2 with rfl | hc3
      · exact digitChar_isDigit _ (by omega)
      · simp at hc3

theorem toFixed2Int_bounds (v : ℚ) (lo hi : ℤ) (hlo : (lo : ℚ) ≤ v) (hhi : v < (hi : ℚ)) :
    100 * lo ≤ toFixed2Int v ∧ toFixed2Int v ≤ 100 * hi := by
  constructor
  · rw [toFixed2Int]
    refine Int.le_floor.mpr ?_
    push_cast
    linarith
  · rw [toFixed2Int]
    refine Int.lt_add_one_iff.mp ?_
    refine Int.floor_lt.mpr ?_
    push_cast
    linarith

/-! ### Claim theorems -/

/-- C1, counterexample: the claim states that `isValidEmail "a@b"`
returns true, but the pattern requires a literal dot after the `@`, so
the function returns false on this input. -/
theorem c1_counterexample : isValidEmail "a@b" = false := by decide

/-- C1 (amended): `isValidEmail` classifies the test vectors as
follows: `"a@b.co"` is valid; `"a@b"` is invalid, because the pattern
`/^[^\s@]+@[^\s@]+\.[^\s@]+$/` requires a dot with at least one
character on each side after the `@`; `"a b@c.com"` is invalid; the
empty string is invalid. -/
theorem c1_email_vectors :
    isValidEmail "a@b.co" = true ∧ isValidEmail "a@b" = false ∧
    isValidEmail "a b@c.com" = false ∧ isValidEmail "" = false :=
  ⟨by decide, by decide, by decide, by decide⟩

/-- C2: starting from empty histories, after any sequence of
`updateDashboard` appends no history exceeds 20 entries and all four
histories have equal length; after exactly 21 appends each history
holds appends 2 through 21 in original order (FIFO eviction in
lock-step). -/
theorem c2_dashboard_history {α : Type} (pf : String → α) (rs : List Reading) :
    ((runDashboard pf rs).temperature.length ≤ 20 ∧
      (runDashboard pf rs).humidity.length = (runDashboard pf rs).temperature.length ∧
      (runDashboard pf rs).pressure.length = (runDashboard pf rs).temperature.length ∧
      (runDashboard pf rs).timestamps.length = (runDashboard pf rs).temperature.length) ∧
    (rs.length = 21 →
      (runDashboard pf rs).temperature = (rs.drop 1).map (fun d => pf d.temperature) ∧
      (runDashboard pf rs).humidity = (rs.drop 1).map (fun d => pf d.humidity) ∧
      (runDashboard pf rs).pressure = (rs.drop 1).map (fun d => pf d.pressure) ∧
      (runDashboard pf rs).timestamps = (rs.drop 1).map Reading.timestamp) := by
  have he := runDashboard_eq pf rs
  have ht : (runDashboard pf rs).temperature = last20 (rs.map fun d => pf d.temperature) := by
    rw [he]
  have hh : (runDashboard pf rs).humidity = last20 (rs.map fun d => pf d.humidity) := by
    rw [he]
  have hp : (runDashboard pf rs).pressure = last20 (rs.map fun d => pf d.pressure) := by
    rw [he]
  have hts : (runDashboard pf rs).timestamps = last20 (rs.map Reading.timestamp) := by
    rw [he]
  constructor
  · rw [ht, hh, hp, hts]
    refine ⟨?_, ?_, ?_, ?_⟩
    · rw [length_last20, List.length_map]
      exact min_le_right _ _
    · simp only [length_last20, List.length_map]
    · simp only [length_last20, List.length_map]
    · simp only [length_last20, List.length_map]
  · intro h21
    have hsuffix : ∀ (β : Type) (f : Reading → β), last20 (rs.map f) = (rs.drop 1).map f := by
      intro β f
      rw [last20, List.length_map, h21, ← List.map_drop]
    rw [ht, hh, hp, hts]
    exact ⟨hsuffix α fun d => pf d.temperature, hsuffix α fun d => pf d.humidity,
      hsuffix α fun d => pf d.pressure, hsuffix String Reading.timestamp⟩

/-- C2, witness at a concrete sequence of 21 readings. -/
theorem c2_dashboard_history_witness :
    c2Readings.length = 21 ∧
    (runDashboard String.length c2Readings).temperature =
      (c2Readings.drop 1).map (fun d => String.length d.temperature) :=
  ⟨by decide, ((c2_dashboard_history String.length c2Readings).2 (by decide)).1⟩

/-- C3, counterexample: when the follower starts exactly at the
(stationary) pointer, the distance is 0 before and after a frame, so it
does not strictly decrease for every initial follower position. -/
theorem c3_counterexample :
    ¬ (Real.sqrt ((distSq ((0 : ℚ), (0 : ℚ))
          (followerAt ((0 : ℚ), (0 : ℚ)) ((0 : ℚ), (0 : ℚ)) 1) : ℚ) : ℝ) <
        Real.sqrt ((distSq ((0 : ℚ), (0 : ℚ))
          (followerAt ((0 : ℚ), (0 : ℚ)) ((0 : ℚ), (0 : ℚ)) 0) : ℚ) : ℝ)) := by
  have h1 : followerAt ((0 : ℚ), (0 : ℚ)) ((0 : ℚ), (0 : ℚ)) 1 = ((0 : ℚ), (0 : ℚ)) := by
    show animateStep ((0 : ℚ), (0 : ℚ)) ((0 : ℚ), (0 : ℚ)) = ((0 : ℚ), (0 : ℚ))
    simp [animateStep]
  rw [h1]
  exact lt_irrefl _

/-- C3 (amended): with a stationary pointer, each frame multiplies the
follower-to-pointer Euclidean distance by exactly
`1 - 0.12 = 0.88`, the distance tends to zero, and it strictly
decreases provided the follower does not start exactly at the pointer
(at the pointer it stays 0). -/
theorem c3_follower_decay (inner outer0 : ℚ × ℚ) (n : Nat) (h : outer0 ≠ inner) :
    decayRatio = 0.88 ∧
    Real.sqrt ((distSq inner (followerAt inner outer0 (n + 1)) : ℚ) : ℝ) =
      ((decayRatio : ℚ) : ℝ) *
        Real.sqrt ((distSq inner (followerAt inner outer0 n) : ℚ) : ℝ) ∧
    Real.sqrt ((distSq inner (followerAt inner outer0 (n + 1)) : ℚ) : ℝ) <
      Real.sqrt ((distSq inner (followerAt inner outer0 n) : ℚ) : ℝ) ∧
    Filter.Tendsto
      (fun k => Real.sqrt ((distSq inner (followerAt inner outer0 k) : ℚ) : ℝ))
      Filter.atTop (nhds 0) := by
  have hd0 : (0 : ℝ) < ((distSq inner outer0 : ℚ) : ℝ) := by
    exact_mod_cast distSq_pos inner outer0 h
  have hsq0 : 0 < Real.sqrt ((distSq inner outer0 : ℚ) : ℝ) := Real.sqrt_pos.mpr hd0
  have hstep : Real.sqrt ((distSq inner (followerAt inner outer0 (n + 1)) : ℚ) : ℝ) =
      ((decayRatio : ℚ) : ℝ) *
        Real.sqrt ((distSq inner (followerAt inner outer0 n) : ℚ) : ℝ) := by
    have hf : followerAt inner outer0 (n + 1) = animateStep inner (followerAt inner outer0 n) :=
      rfl
    rw [hf, dist_step]
  refine ⟨by norm_num [decayRatio, easeAmount], hstep, ?_, ?_⟩
  · rw [hstep, dist_geom, decayRatio_cast]
    have hpow : (0 : ℝ) < (0.88 : ℝ) ^ n := by positivity
    nlinarith [mul_pos hpow hsq0]
  · have heq : (fun k => Real.sqrt ((distSq inner (followerAt inner outer0 k) : ℚ) : ℝ)) =
        fun k => ((decayRatio : ℚ) : ℝ) ^ k * Real.sqrt ((distSq inner outer0 : ℚ) : ℝ) :=
      funext fun k => dist_geom inner outer0 k
    rw [heq]
    simp only [decayRatio_cast]
    have ht := (tendsto_pow_atTop_nhds_zero_of_lt_one
      (by norm_num : (0 : ℝ) ≤ 0.88) (by norm_num : (0.88 : ℝ) < 1)).mul_const
      (Real.sqrt ((distSq inner outer0 : ℚ) : ℝ))
    simpa using ht

/-- C3, witness: follower at the origin, pointer at `(1, 0)`, first
frame strictly decreases the distance. -/
theorem c3_follower_decay_witness :
    ((0 : ℚ), (0 : ℚ)) ≠ ((1 : ℚ), (0 : ℚ)) ∧
    Real.sqrt ((distSq ((1 : ℚ), (0 : ℚ))
        (followerAt ((1 : ℚ), (0 : ℚ)) ((0 : ℚ), (0 : ℚ)) 1) : ℚ) : ℝ) <
      Real.sqrt ((distSq ((1 : ℚ), (0 : ℚ))
        (followerAt ((1 : ℚ), (0 : ℚ)) ((0 : ℚ), (0 : ℚ)) 0) : ℚ) : ℝ) :=
  ⟨by norm_num [Prod.ext_iff],
    (c3_follower_decay ((1 : ℚ), (0 : ℚ)) ((0 : ℚ), (0 : ℚ)) 0
      (by norm_num [Prod.ext_iff])).2.2.1⟩

theorem parse_bounds (v : ℚ) (lo hi : ℤ) (h0 : 0 ≤ lo) (hlo : (lo : ℚ) ≤ v)
    (hhi : v < (hi : ℚ)) :
    (lo : ℚ) ≤ parseDecimal (toFixed2 v) ∧ parseDecimal (toFixed2 v) ≤ (hi : ℚ) := by
  obtain ⟨hl, hh⟩ := toFixed2Int_bounds v lo hi hlo hhi
  have hnn : 0 ≤ toFixed2Int v := le_trans (by nlinarith) hl
  have htn : ((toFixed2Int v).toNat : ℤ) = toFixed2Int v := Int.toNat_of_nonneg hnn
  have hcast : (((toFixed2Int v).toNat : ℕ) : ℚ) = ((toFixed2Int v : ℤ) : ℚ) := by
    exact_mod_cast congrArg (fun z : ℤ => (z : ℚ)) htn
  rw [parseDecimal_toFixed2, hcast]
  constructor
  · rw [le_div_iff₀ (by norm_num : (0 : ℚ) < 100)]
    have hq : ((100 * lo : ℤ) : ℚ) ≤ ((toFixed2Int v : ℤ) : ℚ) := by exact_mod_cast hl
    push_cast at hq
    linarith
  · rw [div_le_iff₀ (by norm_num : (0 : ℚ) < 100)]
    have hq : ((toFixed2Int v : ℤ) : ℚ) ≤ ((100 * hi : ℤ) : ℚ) := by exact_mod_cast hh
    push_cast at hq
    linarith

/-- C4: for random draws in `[0, 1)`, the mock reading has temperature
in `[20, 30]`, humidity in `[40, 70]`, pressure in `[1013, 1018]`, each
rendered as a decimal string with exactly two digits after the decimal
point. -/
theorem c4_mock_ranges (r1 r2 r3 : ℚ) (ts : String)
    (h1 : 0 ≤ r1) (h2 : r1 < 1) (h3 : 0 ≤ r2) (h4 : r2 < 1) (h5 : 0 ≤ r3) (h6 : r3 < 1) :
    (20 ≤ parseDecimal (generateMockData r1 r2 r3 ts).temperature ∧
      parseDecimal (generateMockData r1 r2 r3 ts).temperature ≤ 30 ∧
      isTwoDecimalStr (generateMockData r1 r2 r3 ts).temperature = true) ∧
    (40 ≤ parseDecimal (generateMockData r1 r2 r3 ts).humidity ∧
      parseDecimal (generateMockData r1 r2 r3 ts).humidity ≤ 70 ∧
      isTwoDecimalStr (generateMockData r1 r2 r3 ts).humidity = true) ∧
    (1013 ≤ parseDecimal (generateMockData r1 r2 r3 ts).pressure ∧
      parseDecimal (generateMockData r1 r2 r3 ts).pressure ≤ 1018 ∧
      isTwoDecimalStr (generateMockData r1 r2 r3 ts).pressure = true) := by
  have ht := parse_bounds (20 + r1 * 10) 20 30 (by norm_num)
    (by push_cast; linarith) (by push_cast; linarith)
  have hh := parse_bounds (40 + r2 * 30) 40 70 (by norm_num)
    (by push_cast; linarith) (by push_cast; linarith)
  have hp := parse_bounds (1013 + r3 * 5) 1013 1018 (by norm_num)
    (by push_cast; linarith) (by push_cast; linarith)
  refine ⟨⟨?_, ?_, isTwoDecimalStr_toFixed2 _⟩, ⟨?_, ?_, isTwoDecimalStr_toFixed2 _⟩,
    ⟨?_, ?_, isTwoDecimalStr_toFixed2 _⟩⟩
  · exact_mod_cast ht.1
  · exact_mod_cast ht.2
  · exact_mod_cast hh.1
  · exact_mod_cast hh.2
  · exact_mod_cast hp.1
  · exact_mod_cast hp.2

/-- C4, witness at draws of one half. -/
theorem c4_mock_ranges_witness :
    (0 ≤ (1 / 2 : ℚ) ∧ (1 / 2 : ℚ) < 1) ∧
    (20 ≤ parseDecimal (generateMockData (1 / 2) (1 / 2) (1 / 2) "10:00:00").temperature ∧
      parseDecimal (generateMockData (1 / 2) (1 / 2) (1 / 2) "10:00:00").temperature ≤ 30 ∧
      isTwoDecimalStr (generateMockData (1 / 2) (1 / 2) (1 / 2) "10:00:00").temperature = true) :=
  ⟨⟨by norm_num, by norm_num⟩,
    (c4_mock_ranges (1 / 2) (1 / 2) (1 / 2) "10:00:00" (by norm_num) (by norm_num)
      (by norm_num) (by norm_num) (by norm_num) (by norm_num)).1⟩

/-- C5: on every failure outcome (synchronous throw, rejection,
non-`ok` status, or body-parse failure) the cycle still calls
`updateDashboard`, its argument is the most recently generated mock
reading, and no error is surfaced to the user. -/
theorem c5_fetch_fallback (fr : FetchResult) (mock : Nat → Reading)
    (h : isFailure fr = true) :
    (fetchESP32Data fr mock).updateRan = true ∧
    (∃ k, (fetchESP32Data fr mock).updateArg = mock k ∧
      (fetchESP32Data fr mock).mockCount = k + 1) ∧
    (fetchESP32Data fr mock).errorShown = false := by
  cases fr with
  | thrown => exact ⟨rfl, ⟨0, rfl, rfl⟩, rfl⟩
  | rejected => exact ⟨rfl, ⟨1, rfl, rfl⟩, rfl⟩
  | response ok body =>
    cases ok with
    | false => exact ⟨rfl, ⟨0, rfl, rfl⟩, rfl⟩
    | true =>
      cases body with
      | none => exact ⟨rfl, ⟨0, rfl, rfl⟩, rfl⟩
      | some d => exact Bool.noConfusion h

/-- C5, witness at a rejected fetch. -/
theorem c5_fetch_fallback_witness :
    isFailure FetchResult.rejected = true ∧
    ((fetchESP32Data FetchResult.rejected mockSeq).updateRan = true ∧
      (∃ k, (fetchESP32Data FetchResult.rejected mockSeq).updateArg = mockSeq k ∧
        (fetchESP32Data FetchResult.rejected mockSeq).mockCount = k + 1) ∧
      (fetchESP32Data FetchResult.rejected mockSeq).errorShown = false) :=
  ⟨rfl, c5_fetch_fallback FetchResult.rejected mockSeq rfl⟩

/-- C6, counterexample: for a click on `"#missing"` with no matching
element, the `initSmoothScroll` handler still calls `preventDefault`,
so default navigation is not left intact as claimed. -/
theorem c6_counterexample :
    ¬ ((initSmoothScrollHandler "#missing" fun _ => false).defaultPrevented = false) := by
  decide

/-- C6 (amended): for a same-page anchor href other than a bare `#`,
the first-bundle handler cancels the default jump and scrolls exactly
when a matching element exists, leaving default navigation intact
otherwise; the `initSmoothScroll` handler cancels the default jump
unconditionally and scrolls exactly when a matching element exists. -/
theorem c6_smooth_scroll (href : String) (te : String → Bool) (h : href ≠ "#") :
    smoothScrollHandler1 href te =
      ⟨te href, if te href then some href else none⟩ ∧
    initSmoothScrollHandler href te =
      ⟨true, if te href then some href else none⟩ := by
  have hb : (href != "#") = true := by simpa using h
  cases hte : te href with
  | true =>
    constructor
    · simp [smoothScrollHandler1, hb, hte]
    · simp [initSmoothScrollHandler, hb, hte]
  | false =>
    constructor
    · simp [smoothScrollHandler1, hb, hte]
    · simp [initSmoothScrollHandler, hb, hte]

/-- C6, witness: href `"#about"` with no matching element. -/
theorem c6_smooth_scroll_witness :
    ("#about" : String) ≠ "#" ∧
    smoothScrollHandler1 "#about" (fun _ => false) = ⟨false, none⟩ ∧
    initSmoothScrollHandler "#about" (fun _ => false) = ⟨true, none⟩ :=
  ⟨by decide, (c6_smooth_scroll "#about" (fun _ => false) (by decide)).1,
    (c6_smooth_scroll "#about" (fun _ => false) (by decide)).2⟩

/-- C7: a submission with any required field empty shows the
fill-all-fields error toast and does not reset the form; the form is
reset only on the success path, after the non-empty and email
validations both pass. -/
theorem c7_contact_form (d : ContactForm) :
    ((d.name = "" ∨ d.email = "" ∨ d.message = "") →
      contactSubmit d = ⟨Toast.error "Bitte fülle alle Felder aus!", false⟩) ∧
    ((contactSubmit d).didReset = true →
      d.name ≠ "" ∧ d.email ≠ "" ∧ d.message ≠ "" ∧ isValidEmail d.email = true ∧
      (contactSubmit d).toast =
        Toast.success "Danke für deine Nachricht! Wir kontaktieren dich bald.") := by
  constructor
  · intro h
    have hcond : (d.name == "" || d.email == "" || d.message == "") = true := by
      rcases h with h | h | h <;> simp [h]
    rw [contactSubmit, if_pos hcond]
  · intro hres
    by_cases hc1 : (d.name == "" || d.email == "" || d.message == "") = true
    · rw [contactSubmit, if_pos hc1] at hres
      exact Bool.noConfusion hres
    · by_cases hc2 : (!(isValidEmail d.email)) = true
      · rw [contactSubmit, if_neg hc1, if_pos hc2] at hres
        exact Bool.noConfusion hres
      · have hv : isValidEmail d.email = true := by simpa using hc2
        have hne : ¬(d.name = "" ∨ d.email = "" ∨ d.message = "") := by
          intro hor
          apply hc1
          rcases hor with h | h | h <;> simp [h]
        push_neg at hne
        refine ⟨hne.1, hne.2.1, hne.2.2, hv, ?_⟩
        rw [contactSubmit, if_neg hc1, if_neg hc2]

/-- C7, witness: empty message field. -/
theorem c7_contact_form_witness :
    ("Max" = "" ∨ "a@b.co" = "" ∨ "" = "") ∧
    contactSubmit ⟨"Max", "a@b.co", ""⟩ = ⟨Toast.error "Bitte fülle alle Felder aus!", false⟩ :=
  ⟨Or.inr (Or.inr rfl),
    (c7_contact_form ⟨"Max", "a@b.co", ""⟩).1 (Or.inr (Or.inr rfl))⟩

/-- C8: on a touch-capable device (positive touch-point count or a
matching hover-none media query) `CustomCursor.init` returns before
registering any listener or starting the animation loop, so no style
write ever happens. -/
theorem c8_touch_disables_cursor (e : CursorEnv) (k : Nat)
    (h : 0 < e.maxTouchPoints ∨ 0 < e.msMaxTouchPoints ∨ e.hoverNoneMatches = true) :
    isTouchDevice e = true ∧ cursorInit e k = ⟨0, 0, false, 0⟩ := by
  have ht : isTouchDevice e = true := by
    rw [isTouchDevice]
    rcases h with h | h | h
    · simp [h]
    · simp [h]
    · simp [h]
  refine ⟨ht, ?_⟩
  rw [cursorInit, if_pos ht]

/-- C8, witness: one touch point. -/
theorem c8_touch_disables_cursor_witness :
    isTouchDevice ⟨1, 0, false⟩ = true ∧ cursorInit ⟨1, 0, false⟩ 4 = ⟨0, 0, false, 0⟩ :=
  c8_touch_disables_cursor ⟨1, 0, false⟩ 4 (Or.inl (by decide))

/-- C9: on a rejected fetch the catch handler produces a first mock
reading whose missing `ok` field is falsy, so the non-success branch
runs and a second, freshly generated mock reading is the one passed to
`updateDashboard`: `generateMockData` runs exactly twice. -/
theorem c9_rejected_double_mock (mock : Nat → Reading) :
    responseOk (AwaitedValue.mockObj (mock 0)) = false ∧
    fetchESP32Data FetchResult.rejected mock = ⟨mock 1, 2, false, true⟩ :=
  ⟨rfl, rfl⟩

/-- C10: `isValidEmail` accepts a string exactly when it has no
whitespace, exactly one `@` not in first position, and after the `@` a
dot that is neither immediately after the `@` nor last. -/
theorem c10_email_characterisation (s : String) : isValidEmail s = emailSpec s := by
  cases h1 : isValidEmail s with
  | true => exact ((email_equiv s).mp h1).symm
  | false =>
    cases h2 : emailSpec s with
    | false => rfl
    | true =>
      have hcontra := (email_equiv s).mpr h2
      rw [h1] at hcontra
      exact Bool.noConfusion hcontra

end Script
